import Mathlib

/-
Verification development for the conversation/streaming session core of the
repository (a document-analysis chat client).

The embedding models the dynamically-typed TypeScript source faithfully:
backend payloads are JSON values (`Json`), property access, truthiness,
`||`, `??`, `===`, string coercion and object spread follow JavaScript
semantics, and each source function of `lib/api.ts` (the REST resource
clients and the streaming consumer) and of `AnalysisAgentPage.tsx` (the
session controller) is translated into a Lean definition of the same name.
-/

/-- A JSON value, as produced by `response.json()` / `JSON.parse` and passed
around untyped in the source.  `num` is restricted to integers: no claim in
this development involves fractional numbers. -/
inductive Json where
  | null : Json
  | bool (b : Bool) : Json
  | num (n : Int) : Json
  | str (s : String) : Json
  | arr (elems : List Json) : Json
  | obj (fields : List (String × Json)) : Json

namespace Json

-- Computable structural equality on `Json` (used only to reason about
-- concrete values; the source never compares whole JSON values).
mutual
def jeq : Json → Json → Bool
  | .null, .null => true
  | .bool a, .bool b => a == b
  | .num a, .num b => a == b
  | .str a, .str b => a == b
  | .arr xs, .arr ys => jeqList xs ys
  | .obj fs, .obj gs => jeqFields fs gs
  | _, _ => false

def jeqList : List Json → List Json → Bool
  | [], [] => true
  | x :: xs, y :: ys => jeq x y && jeqList xs ys
  | _, _ => false

def jeqFields : List (String × Json) → List (String × Json) → Bool
  | [], [] => true
  | (k, v) :: fs, (l, w) :: gs => k == l && jeq v w && jeqFields fs gs
  | _, _ => false
end

end Json

/-- JavaScript property lookup `x[k]` on a decoded JSON value.  `none` models
`undefined`: objects yield the value stored under the key (JSON objects are
duplicate-free; first match), and every non-object (including strings and
arrays, whose only own properties are indices/`length`, never the
identifier-like keys this code reads) yields `undefined`. -/
def getF : Json → String → Option Json
  | .obj fields, k => lookupField fields k
  | _, _ => none
where
  lookupField : List (String × Json) → String → Option Json
    | [], _ => none
    | (l, v) :: rest, k => if l == k then some v else lookupField rest k

/-- JavaScript truthiness of a value: `null`, `false`, `0`, `""` are falsy;
every other value (all objects and arrays included) is truthy. -/
def truthyJ : Json → Bool
  | .null => false
  | .bool b => b
  | .num n => n != 0
  | .str s => s != ""
  | .arr _ => true
  | .obj _ => true

/-- Truthiness of a possibly-`undefined` value (`none` = `undefined`, falsy). -/
def truthyO : Option Json → Bool
  | none => false
  | some j => truthyJ j

/-- JavaScript `a || b` where `a` may be `undefined`: the first operand if it
is truthy, otherwise the second operand (returned as-is, even if falsy). -/
def jsOrJ (a : Option Json) (b : Json) : Json :=
  match a with
  | some j => if truthyJ j then j else b
  | none => b

/-- JavaScript `a ?? b` (nullish coalescing) where both operands may be
`undefined`: the first operand unless it is `null` or `undefined`. -/
def jsNullish (a b : Option Json) : Option Json :=
  match a with
  | none => b
  | some .null => b
  | some j => some j

/-- JavaScript `===` between a decoded value (possibly `undefined`) and a
string literal: true exactly when the value is that primitive string. -/
def jsEqStr (a : Option Json) (s : String) : Bool :=
  match a with
  | some (.str t) => t == s
  | _ => false

/-- JavaScript string coercion `String(x)` (used by `+` on strings and by
template literals): arrays join their coerced elements with commas, plain
objects coerce to "[object Object]". -/
def jsToString : Json → String
  | .null => "null"
  | .bool true => "true"
  | .bool false => "false"
  | .num n => toString n
  | .str s => s
  | .arr xs => String.intercalate "," (jsToStringList xs)
  | .obj _ => "[object Object]"
where
  jsToStringList : List Json → List String
    | [] => []
    | x :: xs => jsToString x :: jsToStringList xs

/-- JavaScript `a + b` on decoded values, restricted to the cases the source
can reach: if either operand is a string the result is string concatenation
of the coercions, two numbers add, and any other combination is modelled by
numeric coercion with non-numeric operands collapsed to `0` (the source only
ever adds strings). -/
def jsAdd : Json → Json → Json
  | .str a, b => .str (a ++ jsToString b)
  | a, .str b => .str (jsToString a ++ b)
  | .num a, .num b => .num (a + b)
  | .num a, _ => .num a
  | _, .num b => .num b
  | _, _ => .num 0

/-- JavaScript `a + b` where `b` may be `undefined` (`undefined` coerces to
the string "undefined" when the other operand is a string). -/
def jsAddU (a : Json) (b : Option Json) : Json :=
  match b with
  | some j => jsAdd a j
  | none =>
    match a with
    | .str s => .str (s ++ "undefined")
    | _ => .num 0

/-- JavaScript object spread with one override, `\x7b...x, k: v\x7d`: for an
object, the field `k` is replaced in place if present, appended otherwise;
spreading a string or an array copies its index properties, and spreading any
other primitive copies nothing. -/
def jsSpreadSet (x : Json) (k : String) (v : Json) : Json :=
  match x with
  | .obj fields => .obj (setField fields k v)
  | .str s => .obj (indexFields 0 (s.toList.map (fun c => Json.str (String.mk [c]))) ++ [(k, v)])
  | .arr xs => .obj (indexFields 0 xs ++ [(k, v)])
  | _ => .obj [(k, v)]
where
  setField : List (String × Json) → String → Json → List (String × Json)
    | [], k, v => [(k, v)]
    | (l, w) :: rest, k, v =>
      if l == k then (l, v) :: rest else (l, w) :: setField rest k v
  indexFields : Nat → List Json → List (String × Json)
    | _, [] => []
    | i, x :: xs => (Nat.repr i, x) :: indexFields (i + 1) xs

/-- Whitespace recognized by JavaScript `String.prototype.trim` (the ASCII
cases; the protocol frames only ever contain these). -/
def isJsWs (c : Char) : Bool :=
  c == ' ' || c == '\t' || c == '\n' || c == '\r' || c == '\x0b' || c == '\x0c'

/-- JavaScript `s.trim()`. -/
def jsTrim (s : String) : String :=
  String.mk (((s.toList.dropWhile isJsWs).reverse.dropWhile isJsWs).reverse)

/-- JavaScript `s.startsWith(p)`. -/
def jsStartsWith (s p : String) : Bool :=
  List.isPrefixOf p.toList s.toList

/-- JavaScript `s.substring(n)` / `s.slice(n)` (code points; the source only
drops the ASCII marker "data: "). -/
def jsDropChars (s : String) (n : Nat) : String :=
  String.mk (s.toList.drop n)

/-- JavaScript `s.slice(0, n)`. -/
def jsTakeChars (s : String) (n : Nat) : String :=
  String.mk (s.toList.take n)

/-- JavaScript `s.length` (code points; titles in the claims are ASCII). -/
def jsLength (s : String) : Nat :=
  s.toList.length

/-- Splits off the text before the first occurrence of `sep` and the text
after it; `none` when `sep` does not occur. -/
def breakOnSep (sep : List Char) : List Char → Option (List Char × List Char)
  | [] => if sep.isEmpty then some ([], []) else none
  | c :: rest =>
    if List.isPrefixOf sep (c :: rest) then some ([], (c :: rest).drop sep.length)
    else
      match breakOnSep sep rest with
      | some (pre, post) => some (c :: pre, post)
      | none => none

/-- Fuel-driven splitting on every occurrence of a (non-empty) separator. -/
def splitCharsAux : Nat → List Char → List Char → List (List Char)
  | 0, _, l => [l]
  | fuel + 1, sep, l =>
    match breakOnSep sep l with
    | none => [l]
    | some (pre, post) => pre :: splitCharsAux fuel sep post

/-- JavaScript `s.split(sep)` for a non-empty separator: splits on every
occurrence, keeping empty pieces (so `"a\n\nb\n\n".split("\n\n")` is
`["a", "b", ""]` and `"".split(sep)` is `[""]`). -/
def jsSplit (s sep : String) : List String :=
  (splitCharsAux (s.toList.length + 1) sep.toList s.toList).map String.mk

/-- Decodes one JSON escape character (the `\uXXXX` form is not modelled;
frames using it are treated as undecodable, which no claim exercises). -/
def jsonEscChar : Char → Option Char
  | '\"' => some '\"'
  | '\\' => some '\\'
  | '/' => some '/'
  | 'n' => some '\n'
  | 't' => some '\t'
  | 'r' => some '\r'
  | 'b' => some '\x08'
  | 'f' => some '\x0c'
  | _ => none

/-- Parses the remainder of a JSON string literal (after the opening quote),
returning its characters and the input after the closing quote. -/
def parseStrChars : List Char → Option (List Char × List Char)
  | [] => none
  | '\"' :: rest => some ([], rest)
  | '\\' :: e :: rest =>
    match jsonEscChar e with
    | some c => (parseStrChars rest).map (fun p => (c :: p.1, p.2))
    | none => none
  | c :: rest => (parseStrChars rest).map (fun p => (c :: p.1, p.2))

/-- JSON whitespace between tokens. -/
def skipJsonWs (cs : List Char) : List Char :=
  cs.dropWhile (fun c => c == ' ' || c == '\t' || c == '\n' || c == '\r')

/-- Digit run to a natural number. -/
def digitsToNat (ds : List Char) : Nat :=
  ds.foldl (fun acc c => acc * 10 + (c.toNat - '0'.toNat)) 0

/-- Parses a JSON integer literal.  Fractional or exponent forms are not
modelled (no claim involves them): they are treated as undecodable frames. -/
def parseIntLit (cs : List Char) : Option (Json × List Char) :=
  let (neg, cs') :=
    match cs with
    | '-' :: rest => (true, rest)
    | _ => (false, cs)
  let ds := cs'.takeWhile Char.isDigit
  let rest := cs'.dropWhile Char.isDigit
  if ds.isEmpty then none
  else
    match rest with
    | '.' :: _ => none
    | 'e' :: _ => none
    | 'E' :: _ => none
    | _ =>
      let n : Int := Int.ofNat (digitsToNat ds)
      some (Json.num (if neg then -n else n), rest)

mutual
-- A model of `JSON.parse`: one JSON value plus the remaining input.  Fuel
-- decreases on every recursive call; `parseJson` supplies enough fuel for
-- any input of the given length, so the fuel never runs out on real input.
def parseJsonVal : Nat → List Char → Option (Json × List Char)
  | 0, _ => none
  | fuel + 1, cs =>
    match skipJsonWs cs with
    | '\"' :: rest => (parseStrChars rest).map (fun p => (Json.str (String.mk p.1), p.2))
    | '\x7b' :: rest =>
      (match skipJsonWs rest with
       | '\x7d' :: r => some (Json.obj [], r)
       | r => (parseJsonMembers fuel r).map (fun p => (Json.obj p.1, p.2)))
    | '[' :: rest =>
      (match skipJsonWs rest with
       | ']' :: r => some (Json.arr [], r)
       | r => (parseJsonElems fuel r).map (fun p => (Json.arr p.1, p.2)))
    | 't' :: 'r' :: 'u' :: 'e' :: rest => some (Json.bool true, rest)
    | 'f' :: 'a' :: 'l' :: 's' :: 'e' :: rest => some (Json.bool false, rest)
    | 'n' :: 'u' :: 'l' :: 'l' :: rest => some (Json.null, rest)
    | rest => parseIntLit rest

def parseJsonMembers : Nat → List Char → Option (List (String × Json) × List Char)
  | 0, _ => none
  | fuel + 1, cs =>
    match skipJsonWs cs with
    | '\"' :: rest =>
      (match parseStrChars rest with
       | none => none
       | some (k, r) =>
         match skipJsonWs r with
         | ':' :: r2 =>
           (match parseJsonVal fuel r2 with
            | none => none
            | some (v, r3) =>
              match skipJsonWs r3 with
              | ',' :: r4 =>
                (parseJsonMembers fuel r4).map (fun p => ((String.mk k, v) :: p.1, p.2))
              | '\x7d' :: r4 => some ([(String.mk k, v)], r4)
              | _ => none)
         | _ => none)
    | _ => none

def parseJsonElems : Nat → List Char → Option (List Json × List Char)
  | 0, _ => none
  | fuel + 1, cs =>
    match parseJsonVal fuel cs with
    | none => none
    | some (v, r) =>
      match skipJsonWs r with
      | ',' :: r2 => (parseJsonElems fuel r2).map (fun p => (v :: p.1, p.2))
      | ']' :: r2 => some ([v], r2)
      | _ => none
end

/-- A model of `JSON.parse(s)`: `none` is a thrown `SyntaxError` (the stream
consumer catches it and silently discards the frame). -/
def parseJson (s : String) : Option Json :=
  match parseJsonVal (s.toList.length + 1) s.toList with
  | some (j, rest) => if (skipJsonWs rest).isEmpty then some j else none
  | none => none

/-- The decoded state of one settled `fetch` response: success flag, HTTP
status, raw body text (`response.text()`), and the decoded body
(`response.json()` of the same body). -/
structure HttpResponse where
  ok : Bool
  status : Nat
  bodyText : String
  bodyJson : Json

/-- JavaScript property read `x.k` at the root of a decoded body: reading a
property of `null` throws a `TypeError`; on every other value it yields the
property (or `undefined`). -/
def jsGetProp (j : Json) (k : String) : Except String (Option Json) :=
  match j with
  | .null => .error ("TypeError: Cannot read properties of null (reading '" ++ k ++ "')")
  | _ => .ok (getF j k)

/-- JavaScript `typeof v === 'object'` (true for plain objects, arrays and
`null`). -/
def isObjectLike : Json → Bool
  | .obj _ => true
  | .arr _ => true
  | .null => true
  | _ => false

namespace conversationsApi

-- The recursive identity search of `conversationsApi.create`
-- (part_001 lines 111-127): depth-first, preferring `id`, then
-- `conversation_id`, then a recursive search through a `data` wrapper, the
-- first array element, and finally every object-valued property in key
-- order; falsy candidates are skipped.  The recursion is driven by fuel so
-- that it is structural (on the fuel) and computes definitionally;
-- `tryGetId` supplies `jsonSize j + 1` fuel.  Every recursive call either
-- descends into a strict subterm or advances along a field list, so the
-- total fuel consumed on any path is bounded by the node-and-field count
-- `jsonSize j`; the fuel therefore never runs out on any JSON value and the
-- function agrees with the source's unbounded recursion.
mutual
def tryGetIdFuel : Nat → Json → Option Json
  | 0, _ => none
  | _ + 1, .null => none
  | _ + 1, .bool _ => none
  | _ + 1, .num _ => none
  | _ + 1, .str s => if s == "" then none else some (.str s)
  | _ + 1, .arr [] => none
  | fuel + 1, .arr (x :: _) => tryGetIdFuel fuel x
  | fuel + 1, .obj fs =>
    if truthyO (getF.lookupField fs "id") then getF.lookupField fs "id"
    else if truthyO (getF.lookupField fs "conversation_id") then
      getF.lookupField fs "conversation_id"
    else
      match getF.lookupField fs "data" with
      | some d => if truthyJ d then tryGetIdFuel fuel d else tryGetIdScanFuel fuel fs
      | none => tryGetIdScanFuel fuel fs

def tryGetIdScanFuel : Nat → List (String × Json) → Option Json
  | 0, _ => none
  | _ + 1, [] => none
  | fuel + 1, (_, v) :: rest =>
    if truthyJ v && isObjectLike v then
      match tryGetIdFuel fuel v with
      | some r => if truthyJ r then some r else tryGetIdScanFuel fuel rest
      | none => tryGetIdScanFuel fuel rest
    else tryGetIdScanFuel fuel rest
end

-- The number of nodes of a JSON value, used only to supply fuel.
mutual
def jsonSize : Json → Nat
  | .null => 1
  | .bool _ => 1
  | .num _ => 1
  | .str _ => 1
  | .arr xs => jsonSizeList xs + 1
  | .obj fs => jsonSizeFields fs + 1

def jsonSizeList : List Json → Nat
  | [] => 0
  | x :: xs => jsonSize x + jsonSizeList xs + 1

def jsonSizeFields : List (String × Json) → Nat
  | [] => 0
  | (_, v) :: fs => jsonSize v + jsonSizeFields fs + 1
end

/-- The source's `tryGetId`, with enough fuel for its argument. -/
def tryGetId (j : Json) : Option Json :=
  tryGetIdFuel (jsonSize j + 1) j

/-- The normalization pipeline of `conversationsApi.create` after a decoded
response (part_001 lines 99-147): unwrap a `conversation` envelope, a `data`
envelope, and a first array element; graft a recursively discovered identity
onto an object lacking one; promote a bare string to a minimal conversation;
then two more defensive unwrap steps.  The final missing-id `console.warn`
is non-fatal and not modelled. -/
def createNormalize (title : Option String) (result : Json) : Json :=
  let conv := jsOrJ (getF result "conversation") result
  let conv :=
    if truthyJ conv && truthyO (getF conv "data") then (getF conv "data").getD .null
    else conv
  let conv := match conv with | .arr (x :: _) => x | _ => conv
  let conv :=
    if truthyJ conv && isObjectLike conv then
      match tryGetId conv with
      | some idv =>
        if truthyJ idv && !(truthyO (getF conv "id")) then jsSpreadSet conv "id" idv
        else conv
      | none => conv
    else conv
  let conv :=
    match conv with
    | .str s => Json.obj [("id", .str s), ("title", .str (title.getD ""))]
    | _ => conv
  let conv := match conv with | .arr (x :: _) => x | _ => conv
  let conv :=
    if truthyJ conv && !(truthyO (getF conv "id")) && truthyO (getF conv "data") then
      (getF conv "data").getD .null
    else conv
  conv

/-- `conversationsApi.create` (part_001 lines 90-149): non-success status
throws a fixed message; a `null` decoded body throws a `TypeError` at the
first property read; otherwise the body is normalized. -/
def create (title : Option String) (r : HttpResponse) : Except String Json :=
  if !r.ok then .error "Failed to create conversation"
  else
    match r.bodyJson with
    | .null => .error "TypeError: Cannot read properties of null (reading 'conversation')"
    | body => .ok (createNormalize title body)

/-- `conversationsApi.getAll` (part_001 lines 151-157): returns
`result.conversations || result`. -/
def getAll (r : HttpResponse) : Except String Json :=
  if !r.ok then .error "Failed to fetch conversations"
  else
    match r.bodyJson with
    | .null => .error "TypeError: Cannot read properties of null (reading 'conversations')"
    | body => .ok (jsOrJ (getF body "conversations") body)

end conversationsApi

namespace documentsApi

/-- `documentsApi.getAll` (part_001 lines 38-55): non-success status throws a
message carrying the status and raw body text; otherwise prefers a
`documents` array, then the body itself if it is an array, else `[]`. -/
def getAll (r : HttpResponse) : Except String Json :=
  if !r.ok then
    .error ("Failed to fetch documents: " ++ Nat.repr r.status ++ " " ++ r.bodyText)
  else
    match r.bodyJson with
    | .null => .error "TypeError: Cannot read properties of null (reading 'documents')"
    | body =>
      match getF body "documents" with
      | some (.arr ds) => .ok (.arr ds)
      | _ =>
        match body with
        | .arr ds => .ok (.arr ds)
        | _ => .ok (.arr [])

/-- `documentsApi.upload` (part_001 lines 57-69). -/
def upload (r : HttpResponse) : Except String Json :=
  if !r.ok then .error "Failed to upload document"
  else
    match r.bodyJson with
    | .null => .error "TypeError: Cannot read properties of null (reading 'document')"
    | body => .ok (jsOrJ (getF body "document") body)

/-- `documentsApi.delete` (part_001 lines 71-77); named `deleteDocument`
because `delete` is a Lean keyword. -/
def deleteDocument (r : HttpResponse) : Except String Unit :=
  if !r.ok then .error "Failed to delete document"
  else .ok ()

end documentsApi

namespace queriesApi

/-- `queriesApi.create` (part_001 lines 80-87): returns the `query` field and
`sources || []`. -/
def create (r : HttpResponse) : Except String (Option Json × Json) :=
  if !r.ok then .error "Failed to create query"
  else
    match r.bodyJson with
    | .null => .error "TypeError: Cannot read properties of null (reading 'query')"
    | body => .ok (getF body "query", jsOrJ (getF body "sources") (.arr []))

end queriesApi

namespace messagesApi

/-- `messagesApi.getByConversation` (part_001 lines 160-166).  The second
component records whether a backend request was issued at all. -/
def getByConversation (conversationId : Option Json) (r : HttpResponse) :
    Except String Json × Bool :=
  if !(truthyO conversationId) then (.ok (.arr []), false)
  else if !r.ok then (.error "Failed to fetch messages", true)
  else
    match r.bodyJson with
    | .null => (.error "TypeError: Cannot read properties of null (reading 'messages')", true)
    | body => (.ok (jsOrJ (getF body "messages") body), true)

/-- `messagesApi.create` (part_001 lines 168-179).  The second component
records whether a backend request was issued at all. -/
def create (conversationId : Option Json) (role : String) (content : String)
    (r : HttpResponse) : Except String Json × Bool :=
  if !(truthyO conversationId) then (.error "conversationId is required", false)
  else if !r.ok then (.error "Failed to create message", true)
  else
    match r.bodyJson with
    | .null => (.error "TypeError: Cannot read properties of null (reading 'message')", true)
    | body => (.ok (jsOrJ (getF body "message") body), true)

/-- `messagesApi.generateAgentResponse` (part_001 lines 181-190,
non-streaming). -/
def generateAgentResponse (r : HttpResponse) : Except String Json :=
  if !r.ok then .error "Failed to generate response"
  else .ok r.bodyJson

end messagesApi

/-- What the transport did underneath one call of
`messagesApi.generateAgentResponseStream`:
`httpError` is a settled non-success response; `noBody` a success response
without a readable body; `ok chunks failure` a success response whose reader
delivered `chunks` and then either closed cleanly (`failure = none`) or made
the pending read throw (`failure = some msg`, the thrown error's message
string).  The consumer's own `stop()` calls `AbortController.abort()`, which
makes the pending `fetch`/`read()` reject with an `AbortError`, so a
cancellation reaches the consumer exactly as `failure = some msg` with the
abort error's description. -/
inductive TransportOutcome where
  | httpError (status : Nat) (bodyText : String)
  | noBody
  | ok (chunks : List String) (failure : Option String)

/-- Frame handling inside the read loop (part_001 lines 218-228): a
whitespace-only part is skipped, a "data: " marker is stripped, and a frame
that fails to decode is silently discarded. -/
def processFramePart (part : String) : Option Json :=
  if jsTrim part == "" then none
  else
    let raw := if jsStartsWith part "data: " then jsDropChars part 6 else part
    parseJson raw

/-- One iteration of the read loop (part_001 lines 212-229): append the chunk
to the buffer, split on blank-line boundaries, keep the trailing fragment as
the new buffer, and emit every decodable completed frame in order. -/
def consumeChunkStep (st : String × List Json) (chunk : String) : String × List Json :=
  let parts := jsSplit (st.1 ++ chunk) "\n\n"
  ((parts.getLast?).getD "", st.2 ++ (parts.dropLast).filterMap processFramePart)

/-- The whole read loop over the delivered chunks, starting from an empty
buffer; the final unterminated buffer is discarded when the reader reports
completion. -/
def consumeChunks (chunks : List String) : String × List Json :=
  chunks.foldl consumeChunkStep ("", [])

/-- The synthetic error event built by the consumer (part_001 lines 205
and 231). -/
def mkErrorEvent (msg : String) : Json :=
  .obj [("type", .str "error"), ("error", .str msg)]

namespace messagesApi

/-- The full event sequence `messagesApi.generateAgentResponseStream`
(part_001 lines 192-236) delivers to its `onEvent` callback for one
transport outcome: one synthetic error for a non-success status; nothing
when the body is unreadable; otherwise every decodable frame in order,
followed by one synthetic error exactly when the transport (or the
consumer's own `stop()`) made a read throw. -/
def generateAgentResponseStream : TransportOutcome → List Json
  | .httpError status body => [mkErrorEvent (Nat.repr status ++ " " ++ body)]
  | .noBody => []
  | .ok chunks failure =>
    let evs := (consumeChunks chunks).2
    match failure with
    | none => evs
    | some msg => evs ++ [mkErrorEvent msg]

end messagesApi

/-- The state owned by `AnalysisAgentPage` (part_003 lines 8-14):
`streamHandle` models `streamControllerRef.current` (the identity of the
stream handle stored there, `none` when null). -/
structure SessionState where
  currentConversation : Option Json
  messages : List Json
  workflowResult : Option Json
  streamHandle : Option Nat
  hasStarted : Bool
  isLoading : Bool

/-- The initial (idle) state of the page. -/
def initialSessionState : SessionState :=
  ⟨none, [], none, none, false, false⟩

/-- The conversation-identity resolution pattern used at part_003 lines 24,
47 and 116: `x?.id ?? x?.conversation_id ?? (typeof x === 'string' ? x :
undefined)`. -/
def resolveConversationId (c : Json) : Option Json :=
  jsNullish (getF c "id")
    (jsNullish (getF c "conversation_id")
      (match c with | .str s => some (.str s) | _ => none))

/-- The locally synthesized assistant placeholder (part_003 lines 63-69 and
129-135). -/
def assistantPlaceholder (assistantId : String) (conversationId : Json)
    (createdAt : String) : Json :=
  .obj [("id", .str assistantId), ("conversation_id", conversationId),
        ("role", .str "assistant"), ("content", .str ""),
        ("created_at", .str createdAt)]

/-- The effect of one delivered stream event on the visible message list, as
performed by the `onEvent` callbacks of both `handleSendMessage` (part_003
lines 142-161) and `handleStartAnalysis` (lines 76-100); the two callbacks
run exactly the same `setMessages` updates (their differences — the `status`
no-op branch, the `workflowResult` / conversation-adoption / stream-handle
assignments — never touch the message list). `assistantId` is the
placeholder identity captured by the callback's closure. -/
def applyStreamEventToMessages (assistantId : String) (ev : Json)
    (msgs : List Json) : List Json :=
  if jsEqStr (getF ev "type") "partial" then
    msgs.map (fun m =>
      if jsEqStr (getF m "id") assistantId then
        jsSpreadSet m "content"
          (jsAddU (jsOrJ (getF m "content") (.str "")) (getF ev "partial"))
      else m)
  else if jsEqStr (getF ev "type") "final" then
    let assistantMsg := getF ev "assistant_message"
    let result := jsOrJ (getF ev "result") (jsOrJ (getF ev "workflow_result") ev)
    if truthyO assistantMsg then
      msgs.map (fun m =>
        if jsEqStr (getF m "id") assistantId then assistantMsg.getD .null else m)
    else
      msgs.map (fun m =>
        if jsEqStr (getF m "id") assistantId then
          jsSpreadSet m "content"
            (if truthyO (getF result "final_output") then
              (getF result "final_output").getD .null
             else (getF m "content").getD .null)
        else m)
  else if jsEqStr (getF ev "type") "error" then
    msgs.map (fun m =>
      if jsEqStr (getF m "id") assistantId then
        jsSpreadSet m "content"
          (.str ("Error: " ++
            jsToString (jsOrJ (getF ev "error")
              (.str "An error occurred during analysis."))))
      else m)
  else msgs

/-- Title derivation at part_003 lines 43-45: a 50-character prefix with an
ellipsis marker when truncated. -/
def deriveTitle (q : String) : String :=
  jsTakeChars q 50 ++ (if 50 < jsLength q then "..." else "")

/-- The environment of one `handleStartAnalysis` call: the settled responses
of its two backend calls and the locally generated placeholder identity and
timestamp (`stream-$\x7bDate.now()\x7d` / `new Date().toISOString()`). -/
structure StartInputs where
  convResp : HttpResponse
  msgResp : HttpResponse
  assistantId : String
  createdAt : String

/-- `handleStartAnalysis` (part_003 lines 34-108) up to the point where the
stream is started, returning the new state and the reported failure
(`alert`), if any.  Faithful details: `hasStarted`/`isLoading` are set
before the backend calls; a missing conversation identity throws after
`conversationsApi.create` returned; `setCurrentConversation` runs before the
user-message call; the message list is replaced by
`[userMessage, placeholder]`; and the new stream controller is NOT stored in
`streamControllerRef` here (that assignment sits inside the callback's
`final` branch, line 91). -/
def handleStartAnalysis (initialQuery : String) (inp : StartInputs)
    (st : SessionState) : SessionState × Option String :=
  if jsTrim initialQuery == "" then (st, none)
  else
    let st := { st with isLoading := true, hasStarted := true }
    match conversationsApi.create (some (deriveTitle initialQuery)) inp.convResp with
    | .error e => ({ st with isLoading := false }, some e)
    | .ok conversation =>
      let convId := resolveConversationId conversation
      let normalizedConversation :=
        if truthyO convId then jsSpreadSet conversation "id" (convId.getD .null)
        else conversation
      if !(truthyJ normalizedConversation &&
           truthyO (getF normalizedConversation "id")) then
        ({ st with isLoading := false },
         some "Conversation id missing from server response; see console for the raw server response.")
      else
        let st := { st with currentConversation := some normalizedConversation }
        match (messagesApi.create (getF normalizedConversation "id") "user"
                (jsTrim initialQuery) inp.msgResp).1 with
        | .error e => ({ st with isLoading := false }, some e)
        | .ok userMessage =>
          let placeholder :=
            assistantPlaceholder inp.assistantId
              ((getF normalizedConversation "id").getD .null) inp.createdAt
          let st := { st with messages := [userMessage, placeholder] }
          ({ st with isLoading := false }, none)

/-- The environment of one `handleSendMessage` call: the settled response of
its backend call, the locally generated placeholder identity and timestamp,
and the identity of the freshly created stream handle. -/
structure SendInputs where
  msgResp : HttpResponse
  assistantId : String
  createdAt : String
  handle : Nat

/-- `handleSendMessage` (part_003 lines 110-169) up to the point where the
stream is started.  Faithful details: the prior message list is kept and
appended to; any handle recorded in `streamControllerRef` has `stop()`
called on it (lines 139-141, no state change of its own); the new handle is
then recorded (line 162); a failure is reported with the fixed alert text of
line 165. -/
def handleSendMessage (content : String) (inp : SendInputs)
    (st : SessionState) : SessionState × Option String :=
  match st.currentConversation with
  | none => (st, none)
  | some cc =>
    if !(truthyJ cc) then (st, none)
    else
      let st := { st with isLoading := true }
      let conversationId := resolveConversationId cc
      if !(truthyO conversationId) then
        ({ st with isLoading := false }, some "Failed to send message. Please try again.")
      else
        match (messagesApi.create conversationId "user" content inp.msgResp).1 with
        | .error _ => ({ st with isLoading := false }, some "Failed to send message. Please try again.")
        | .ok userMessage =>
          let st := { st with messages := st.messages ++ [userMessage] }
          let placeholder :=
            assistantPlaceholder inp.assistantId (conversationId.getD .null)
              inp.createdAt
          let st := { st with messages := st.messages ++ [placeholder] }
          let st := { st with streamHandle := some inp.handle }
          ({ st with isLoading := false }, none)

/-- Folds a sequence of delivered stream events for one turn over the
message list. -/
def runTurnEvents (assistantId : String) (evs : List Json)
    (msgs : List Json) : List Json :=
  evs.foldl (fun l e => applyStreamEventToMessages assistantId e l) msgs

/-- A `partial` stream event carrying a fragment (protocol of §6 /
part_001). -/
def mkPartialEvent (frag : String) : Json :=
  .obj [("type", .str "partial"), ("partial", .str frag)]

/-- A `final` stream event with no `assistant_message`, whose `result`
envelope carries `final_output` exactly when `fo` is present. -/
def mkFinalEventNoMsg (fo : Option String) : Json :=
  .obj [("type", .str "final"),
        ("result", .obj (match fo with
          | some s => [("final_output", .str s)]
          | none => []))]

/-- Whether a stream event is terminal (`final` or `error`). -/
def isTerminalEvent (ev : Json) : Bool :=
  jsEqStr (getF ev "type") "final" || jsEqStr (getF ev "type") "error"

/-- Substring test (for statements about error messages). -/
def strContainsAux (sub : List Char) : List Char → Bool
  | [] => List.isPrefixOf sub []
  | c :: rest => List.isPrefixOf sub (c :: rest) || strContainsAux sub rest

/-- Whether `sub` occurs inside `s`. -/
def strContains (s sub : String) : Bool :=
  strContainsAux sub.toList s.toList

/-- The placeholder object after its content field has been updated in place
(the spread `\x7b...m, content: c\x7d` keeps every other field and the field
order). -/
def placeholderWithContent (assistantId : String) (conversationId : Json)
    (createdAt : String) (content : String) : Json :=
  .obj [("id", .str assistantId), ("conversation_id", conversationId),
        ("role", .str "assistant"), ("content", .str content),
        ("created_at", .str createdAt)]

/-- The conversation value `handleStartAnalysis` holds after normalization
(part_003 lines 43-48): the REST client's normalization followed by the
controller's own identity grafting. -/
def startNormalizedConversation (q : String) (body : Json) : Json :=
  let conversation := conversationsApi.createNormalize (some (deriveTitle q)) body
  if truthyO (resolveConversationId conversation) then
    jsSpreadSet conversation "id" ((resolveConversationId conversation).getD .null)
  else conversation

theorem map_id_of_mem {f : Json → Json} (l : List Json)
    (h : ∀ x ∈ l, f x = x) : l.map f = l := by
  induction l with
  | nil => rfl
  | cons x xs ih =>
    simp only [List.map_cons, h x (List.mem_cons_self x xs)]
    exact congrArg (x :: ·) (ih (fun y hy => h y (List.mem_cons_of_mem x hy)))

theorem applyStreamEvent_length (aid : String) (ev : Json) (msgs : List Json) :
    (applyStreamEventToMessages aid ev msgs).length = msgs.length := by
  unfold applyStreamEventToMessages
  by_cases h1 : jsEqStr (getF ev "type") "partial" = true <;>
    by_cases h2 : jsEqStr (getF ev "type") "final" = true <;>
      by_cases h3 : jsEqStr (getF ev "type") "error" = true <;>
        by_cases h4 : truthyO (getF ev "assistant_message") = true <;>
          simp [h1, h2, h3, h4]

theorem applyStreamEvent_frame (aid : String) (ev : Json) (msgs : List Json)
    (i : Nat) (m : Json) (hm : msgs[i]? = some m)
    (hid : jsEqStr (getF m "id") aid = false) :
    (applyStreamEventToMessages aid ev msgs)[i]? = some m := by
  unfold applyStreamEventToMessages
  by_cases h1 : jsEqStr (getF ev "type") "partial" = true <;>
    by_cases h2 : jsEqStr (getF ev "type") "final" = true <;>
      by_cases h3 : jsEqStr (getF ev "type") "error" = true <;>
        by_cases h4 : truthyO (getF ev "assistant_message") = true <;>
          simp [h1, h2, h3, h4, List.getElem?_map, hm, hid]

theorem lookupField_setField_eq (fs : List (String × Json)) (k : String) (v : Json) :
    getF.lookupField (jsSpreadSet.setField fs k v) k = some v := by
  induction fs with
  | nil => simp [jsSpreadSet.setField, getF.lookupField]
  | cons p rest ih =>
    obtain ⟨l, w⟩ := p
    by_cases hl : l = k
    · subst hl
      simp [jsSpreadSet.setField, getF.lookupField]
    · simp [jsSpreadSet.setField, getF.lookupField, hl, ih]

theorem lookupField_setField_ne (fs : List (String × Json)) (k : String) (v : Json)
    (k' : String) (h : k' ≠ k) :
    getF.lookupField (jsSpreadSet.setField fs k v) k' = getF.lookupField fs k' := by
  induction fs with
  | nil => simp [jsSpreadSet.setField, getF.lookupField, Ne.symm h]
  | cons p rest ih =>
    obtain ⟨l, w⟩ := p
    by_cases hl : l = k
    · subst hl
      simp [jsSpreadSet.setField, getF.lookupField, Ne.symm h]
    · by_cases hlk : l = k'
      · subst hlk
        simp [jsSpreadSet.setField, getF.lookupField, hl]
      · simp [jsSpreadSet.setField, getF.lookupField, hl, hlk, ih]

theorem apply_partial_step (aid : String) (f : String)
    (other : List Json) (hother : ∀ m ∈ other, jsEqStr (getF m "id") aid = false)
    (cid : Json) (ts : String) (c : String) :
    applyStreamEventToMessages aid (mkPartialEvent f)
      (other ++ [placeholderWithContent aid cid ts c])
      = other ++ [placeholderWithContent aid cid ts (c ++ f)] := by
  have htype : jsEqStr (getF (mkPartialEvent f) "type") "partial" = true := by
    simp [mkPartialEvent, getF, getF.lookupField, jsEqStr]
  unfold applyStreamEventToMessages
  rw [if_pos htype, List.map_append]
  congr 1
  · exact map_id_of_mem other (fun m hm => by simp [hother m hm])
  · simp only [List.map_cons, List.map_nil]
    have hid : jsEqStr (getF (placeholderWithContent aid cid ts c) "id") aid = true := by
      simp [placeholderWithContent, getF, getF.lookupField, jsEqStr]
    rw [if_pos hid]
    by_cases hc : c = ""
    · subst hc
      rfl
    · have htr : truthyJ (.str c) = true := by simp [truthyJ, hc]
      simp [placeholderWithContent, getF, getF.lookupField, jsOrJ, htr, jsAddU, jsAdd,
        jsToString, jsSpreadSet, jsSpreadSet.setField, mkPartialEvent]

theorem apply_final_step (aid : String) (fo : Option String)
    (other : List Json) (hother : ∀ m ∈ other, jsEqStr (getF m "id") aid = false)
    (cid : Json) (ts : String) (c : String) :
    applyStreamEventToMessages aid (mkFinalEventNoMsg fo)
      (other ++ [placeholderWithContent aid cid ts c])
      = other ++ [placeholderWithContent aid cid ts
          (match fo with
           | some s => if s = "" then c else s
           | none => c)] := by
  have hty1 : jsEqStr (getF (mkFinalEventNoMsg fo) "type") "partial" = false := by
    simp [mkFinalEventNoMsg, getF, getF.lookupField, jsEqStr]
  have hty2 : jsEqStr (getF (mkFinalEventNoMsg fo) "type") "final" = true := by
    simp [mkFinalEventNoMsg, getF, getF.lookupField, jsEqStr]
  have ham : truthyO (getF (mkFinalEventNoMsg fo) "assistant_message") = false := by
    simp [mkFinalEventNoMsg, getF, getF.lookupField, truthyO]
  unfold applyStreamEventToMessages
  rw [if_neg (by simp [hty1]), if_pos hty2, if_neg (by simp [ham]), List.map_append]
  congr 1
  · exact map_id_of_mem other (fun m hm => by simp [hother m hm])
  · simp only [List.map_cons, List.map_nil]
    have hid : jsEqStr (getF (placeholderWithContent aid cid ts c) "id") aid = true := by
      simp [placeholderWithContent, getF, getF.lookupField, jsEqStr]
    rw [if_pos hid]
    match fo with
    | none => rfl
    | some s =>
      by_cases hs : s = ""
      · subst hs
        rfl
      · congr 1
        split
        · show jsSpreadSet (placeholderWithContent aid cid ts c) "content"
              ((getF (jsOrJ (getF (mkFinalEventNoMsg (some s)) "result")
                (jsOrJ (getF (mkFinalEventNoMsg (some s)) "workflow_result")
                  (mkFinalEventNoMsg (some s)))) "final_output").getD Json.null)
            = placeholderWithContent aid cid ts (if s = "" then c else s)
          rw [if_neg hs]
          rfl
        · rename_i hcond
          exact absurd (show (s != "") = true by simp [hs]) hcond

theorem foldl_strAppend (l : List String) : ∀ (a b : String),
    l.foldl (fun r t => r ++ t) (a ++ b) = a ++ l.foldl (fun r t => r ++ t) b := by
  induction l with
  | nil => intro a b; rfl
  | cons x xs ih =>
    intro a b
    simp only [List.foldl_cons]
    rw [String.append_assoc]
    exact ih a (b ++ x)

theorem join_strCons (f : String) (l : List String) :
    String.join (f :: l) = f ++ String.join l := by
  show l.foldl (fun r t => r ++ t) ("" ++ f) = f ++ l.foldl (fun r t => r ++ t) ""
  rw [show ("" ++ f : String) = f ++ "" by simp]
  exact foldl_strAppend l f ""

theorem runTurn_partials (aid : String) (frags : List String)
    (other : List Json) (hother : ∀ m ∈ other, jsEqStr (getF m "id") aid = false)
    (cid : Json) (ts : String) (c : String) :
    runTurnEvents aid (frags.map mkPartialEvent)
      (other ++ [placeholderWithContent aid cid ts c])
      = other ++ [placeholderWithContent aid cid ts (c ++ String.join frags)] := by
  induction frags generalizing c with
  | nil =>
    simp [runTurnEvents, String.join]
  | cons f frags ih =>
    simp only [List.map_cons, runTurnEvents, List.foldl_cons]
    rw [show applyStreamEventToMessages aid (mkPartialEvent f)
          (other ++ [placeholderWithContent aid cid ts c])
        = other ++ [placeholderWithContent aid cid ts (c ++ f)] from
        apply_partial_step aid f other hother cid ts c]
    have := ih (c ++ f)
    simp only [runTurnEvents] at this
    rw [this, join_strCons, String.append_assoc]

theorem jsOrJ_falsy {a : Option Json} (b : Json) (h : truthyO a = false) :
    jsOrJ a b = b := by
  cases a with
  | none => rfl
  | some j => simp_all [jsOrJ, truthyO]

theorem conversationsApi_create_ok (t : Option String) (r : HttpResponse)
    (hok : r.ok = true) (hn : r.bodyJson ≠ .null) :
    conversationsApi.create t r = .ok (conversationsApi.createNormalize t r.bodyJson) := by
  unfold conversationsApi.create
  rw [hok]
  cases hb : r.bodyJson <;> simp_all

/-- C5: normalizing a bare string payload yields an entity whose identity is
that string; a nested data-envelope payload yields the nested identity; an
array payload yields the first element's identity; and normalization is a
pure function, so identical inputs give identical outputs. -/
theorem c5_normalizer_examples :
    (∀ title : Option String,
      getF (conversationsApi.createNormalize title (.str "x")) "id"
        = some (.str "x")) ∧
    (∀ title : Option String,
      getF (conversationsApi.createNormalize title
          (.obj [("data", .obj [("id", .str "x")])])) "id"
        = some (.str "x")) ∧
    (∀ title : Option String,
      getF (conversationsApi.createNormalize title
          (.arr [.obj [("id", .str "a")], .obj [("id", .str "b")]])) "id"
        = some (.str "a")) ∧
    (∀ (title : Option String) (payload : Json),
      conversationsApi.createNormalize title payload
        = conversationsApi.createNormalize title payload) :=
  ⟨fun _ => rfl, fun _ => rfl, fun _ => rfl, fun _ _ => rfl⟩

/-- C10: fetching messages with a nullish conversation identity returns an
empty list without issuing a backend request, and creating a message with an
undefined conversation identity fails before any request is issued. -/
theorem c10_nullish_conversation_guards :
    (∀ r : HttpResponse, messagesApi.getByConversation none r = (.ok (.arr []), false)) ∧
    (∀ r : HttpResponse,
      messagesApi.getByConversation (some .null) r = (.ok (.arr []), false)) ∧
    (∀ (r : HttpResponse) (role content : String),
      messagesApi.create none role content r = (.error "conversationId is required", false)) :=
  ⟨fun _ => rfl, fun _ => rfl, fun _ _ _ => rfl⟩

/-- C2 counterexample: a transport failure caused by the consumer's own
`stop()` (the abort rejection reaching the catch handler) emits one
synthetic error event — not zero as the claim states. -/
theorem c2_counterexample_abort_event :
    messagesApi.generateAgentResponseStream
        (.ok [] (some "The operation was aborted."))
      = [mkErrorEvent "The operation was aborted."] := rfl

/-- C2 amended: cancellation is not silent.  A failure thrown by the
transport — including the abort raised by the consumer's own `stop()` — is
handled by the single catch handler, which emits exactly one synthetic
error event carrying the failure's description, as the last event. -/
theorem c2_cancellation_emits_error (chunks : List String) (msg : String) :
    (messagesApi.generateAgentResponseStream (.ok chunks (some msg))).getLast?
        = some (mkErrorEvent msg) ∧
    (messagesApi.generateAgentResponseStream (.ok chunks (some msg))).length
        = (messagesApi.generateAgentResponseStream (.ok chunks none)).length + 1 := by
  unfold messagesApi.generateAgentResponseStream
  exact ⟨List.getLast?_concat _, by simp⟩

/-- C8 counterexample: a failed upload (status 500, body "boom") throws an
error whose message carries neither the status code nor the body text. -/
theorem c8_counterexample_upload_error :
    documentsApi.upload ⟨false, 500, "boom", .null⟩
        = .error "Failed to upload document" ∧
    strContains "Failed to upload document" "500" = false ∧
    strContains "Failed to upload document" "boom" = false :=
  ⟨rfl, rfl, rfl⟩

/-- C8 amended: only the document-list operation (and the streaming
endpoint's synthetic error for a non-success status) carries the status code
and raw body text; every other operation fails with a fixed message that
contains neither. -/
theorem c8_error_diagnostics_amended :
    (∀ r : HttpResponse, r.ok = false →
      documentsApi.getAll r
        = .error ("Failed to fetch documents: " ++ Nat.repr r.status ++ " " ++ r.bodyText)) ∧
    (∀ (status : Nat) (bodyText : String),
      messagesApi.generateAgentResponseStream (.httpError status bodyText)
        = [mkErrorEvent (Nat.repr status ++ " " ++ bodyText)]) ∧
    (∀ r : HttpResponse, r.ok = false →
      documentsApi.upload r = .error "Failed to upload document" ∧
      documentsApi.deleteDocument r = .error "Failed to delete document" ∧
      queriesApi.create r = .error "Failed to create query" ∧
      (∀ title, conversationsApi.create title r = .error "Failed to create conversation") ∧
      conversationsApi.getAll r = .error "Failed to fetch conversations" ∧
      (∀ cid, truthyO cid = true →
        (messagesApi.getByConversation cid r).1 = .error "Failed to fetch messages") ∧
      (∀ cid role content, truthyO cid = true →
        (messagesApi.create cid role content r).1 = .error "Failed to create message") ∧
      messagesApi.generateAgentResponse r = .error "Failed to generate response") := by
  refine ⟨fun r h => ?_, fun status bodyText => rfl, fun r h => ?_⟩
  · simp [documentsApi.getAll, h]
  · refine ⟨by simp [documentsApi.upload, h], by simp [documentsApi.deleteDocument, h],
      by simp [queriesApi.create, h], fun title => by simp [conversationsApi.create, h],
      by simp [conversationsApi.getAll, h], fun cid hc => ?_, fun cid role content hc => ?_,
      by simp [messagesApi.generateAgentResponse, h]⟩
    · simp [messagesApi.getByConversation, h, hc]
    · simp [messagesApi.create, h, hc]

theorem c8_error_diagnostics_amended_witness :
    documentsApi.getAll ⟨false, 500, "boom", .null⟩
        = .error "Failed to fetch documents: 500 boom" ∧
    documentsApi.upload ⟨false, 500, "boom", .null⟩ = .error "Failed to upload document" ∧
    (messagesApi.create (some (.str "c1")) "user" "hi" ⟨false, 500, "boom", .null⟩).1
        = .error "Failed to create message" :=
  ⟨(c8_error_diagnostics_amended.1 ⟨false, 500, "boom", .null⟩ rfl).trans rfl,
   (c8_error_diagnostics_amended.2.2 ⟨false, 500, "boom", .null⟩ rfl).1,
   (c8_error_diagnostics_amended.2.2 ⟨false, 500, "boom", .null⟩ rfl).2.2.2.2.2.2.1
     (some (.str "c1")) "user" "hi" rfl⟩

/-- C7 counterexample: the conversations list operation, on a decoded object
payload with no `conversations` key, returns the raw object — not an empty
sequence. -/
theorem c7_counterexample_conversations_raw :
    conversationsApi.getAll ⟨true, 200, "", .obj [("rows", .num 1)]⟩
        = .ok (.obj [("rows", .num 1)]) ∧
    conversationsApi.getAll ⟨true, 200, "", .obj [("rows", .num 1)]⟩
        ≠ .ok (.arr []) := by
  refine ⟨rfl, fun h => ?_⟩
  have h2 := (rfl : conversationsApi.getAll ⟨true, 200, "", .obj [("rows", .num 1)]⟩
      = .ok (.obj [("rows", .num 1)])).symm.trans h
  injection h2 with h3
  exact Json.noConfusion h3

/-- C7 amended: only the documents list defaults to an empty sequence on an
unrecognizable payload; the conversations and messages lists return the
value under their conventional key when it is truthy and otherwise the raw
decoded payload itself, which need not be an array.  None of the three
raises on a well-formed empty result (a decoded empty array is returned
as-is). -/
theorem c7_list_defaults_amended :
    (∀ r : HttpResponse, r.ok = true → r.bodyJson ≠ .null →
      ∃ ds, documentsApi.getAll r = .ok (.arr ds)) ∧
    (∀ r : HttpResponse, r.ok = true →
      (∀ ds, getF r.bodyJson "documents" ≠ some (.arr ds)) →
      (∀ ds, r.bodyJson ≠ .arr ds) → r.bodyJson ≠ .null →
      documentsApi.getAll r = .ok (.arr [])) ∧
    (∀ r : HttpResponse, r.ok = true → r.bodyJson ≠ .null →
      truthyO (getF r.bodyJson "conversations") = false →
      conversationsApi.getAll r = .ok r.bodyJson) ∧
    (∀ (r : HttpResponse) (cid : Option Json), r.ok = true → r.bodyJson ≠ .null →
      truthyO cid = true → truthyO (getF r.bodyJson "messages") = false →
      (messagesApi.getByConversation cid r).1 = .ok r.bodyJson) ∧
    (∀ r : HttpResponse, r.ok = true → r.bodyJson = .arr [] →
      documentsApi.getAll r = .ok (.arr []) ∧
      conversationsApi.getAll r = .ok (.arr []) ∧
      (∀ cid, truthyO cid = true →
        (messagesApi.getByConversation cid r).1 = .ok (.arr []))) := by
  refine ⟨fun r h hn => ?_, fun r h h1 h2 hn => ?_, fun r h hn hc => ?_,
    fun r cid h hn hcid hm => ?_, fun r h hb => ?_⟩
  · unfold documentsApi.getAll
    rw [h]
    cases hb : r.bodyJson with
    | null => exact absurd hb hn
    | _ =>
      simp only [Bool.not_true, Bool.false_eq_true, if_false]
      split
      · exact ⟨_, rfl⟩
      · exact ⟨_, rfl⟩
  · unfold documentsApi.getAll
    rw [h]
    cases hb : r.bodyJson with
    | null => exact absurd hb hn
    | _ =>
      simp only [Bool.not_true, Bool.false_eq_true, if_false]
      split
      · rename_i ds heq
        rw [← hb] at heq
        exact absurd heq (h1 ds)
      · first
        | rfl
        | exact absurd hb (h2 _)
  · unfold conversationsApi.getAll
    rw [h]
    cases hb : r.bodyJson with
    | null => exact absurd hb hn
    | _ =>
      simp only [Bool.not_true, Bool.false_eq_true, if_false]
      rw [hb] at hc
      exact congrArg Except.ok (jsOrJ_falsy _ hc)
  · unfold messagesApi.getByConversation
    rw [hcid, h]
    cases hb : r.bodyJson with
    | null => exact absurd hb hn
    | _ =>
      simp only [Bool.not_true, Bool.false_eq_true, if_false]
      rw [hb] at hm
      exact congrArg Except.ok (jsOrJ_falsy _ hm)
  · refine ⟨?_, ?_, fun cid hcid => ?_⟩
    · unfold documentsApi.getAll
      rw [h, hb]
      rfl
    · unfold conversationsApi.getAll
      rw [h, hb]
      rfl
    · unfold messagesApi.getByConversation
      rw [hcid, h, hb]
      rfl

theorem c7_list_defaults_amended_witness :
    conversationsApi.getAll ⟨true, 200, "", .obj [("rows", .num 1)]⟩
        = .ok (.obj [("rows", .num 1)]) ∧
    documentsApi.getAll ⟨true, 200, "", .obj [("rows", .num 1)]⟩ = .ok (.arr []) ∧
    conversationsApi.getAll ⟨true, 200, "", .arr []⟩ = .ok (.arr []) :=
  ⟨c7_list_defaults_amended.2.2.1 ⟨true, 200, "", .obj [("rows", .num 1)]⟩ rfl
      (fun hx => Json.noConfusion hx) rfl,
   c7_list_defaults_amended.2.1 ⟨true, 200, "", .obj [("rows", .num 1)]⟩ rfl
      (fun ds hx => by simp [getF, getF.lookupField] at hx)
      (fun ds hx => Json.noConfusion hx) (fun hx => Json.noConfusion hx),
   (c7_list_defaults_amended.2.2.2.2 ⟨true, 200, "", .arr []⟩ rfl rfl).2.1⟩

/-- C3 counterexample: a byte stream whose frames contain a terminal `final`
frame followed by another well-formed `partial` frame makes the consumer
emit both events — an event is emitted after the terminal one. -/
theorem c3_counterexample_event_after_final :
    messagesApi.generateAgentResponseStream
        (.ok ["data: \x7b\"type\": \"final\"\x7d\n\ndata: \x7b\"type\": \"partial\", \"partial\": \"x\"\x7d\n\n"] none)
      = [.obj [("type", .str "final")],
         .obj [("type", .str "partial"), ("partial", .str "x")]] ∧
    isTerminalEvent (.obj [("type", .str "final")]) = true :=
  ⟨rfl, rfl⟩

/-- C3 amended: the consumer does not track in-band terminal frames: a
complete well-formed frame arriving after a `final` (or in-band `error`)
frame is still decoded and emitted.  Exactly-once termination holds only for
the synthetic error paths (non-success status; transport failure), which end
the run. -/
theorem c3_no_inband_termination (chunks : List String) (extra : String)
    (hbuf : (consumeChunks chunks).1 = "") :
    messagesApi.generateAgentResponseStream (.ok (chunks ++ [extra]) none)
      = messagesApi.generateAgentResponseStream (.ok chunks none)
        ++ ((jsSplit extra "\n\n").dropLast.filterMap processFramePart) := by
  show (consumeChunks (chunks ++ [extra])).2
      = (consumeChunks chunks).2 ++ ((jsSplit extra "\n\n").dropLast.filterMap processFramePart)
  have h1 : consumeChunks (chunks ++ [extra]) = consumeChunkStep (consumeChunks chunks) extra := by
    unfold consumeChunks
    rw [List.foldl_append]
    rfl
  have h2 : consumeChunks chunks = ("", (consumeChunks chunks).2) := by
    rw [← hbuf]
  rw [h1, h2]
  rfl

theorem c3_no_inband_termination_witness :
    messagesApi.generateAgentResponseStream
        (.ok (["data: \x7b\"type\": \"final\"\x7d\n\n"]
          ++ ["data: \x7b\"type\": \"partial\", \"partial\": \"x\"\x7d\n\n"]) none)
      = messagesApi.generateAgentResponseStream
          (.ok ["data: \x7b\"type\": \"final\"\x7d\n\n"] none)
        ++ [.obj [("type", .str "partial"), ("partial", .str "x")]] :=
  (c3_no_inband_termination ["data: \x7b\"type\": \"final\"\x7d\n\n"]
      "data: \x7b\"type\": \"partial\", \"partial\": \"x\"\x7d\n\n" rfl).trans
    (by rfl)

/-- C9: a `partial` event changes nothing but the placeholder entries: the
list keeps its length and order, every message whose identity differs from
the placeholder's is unchanged, and a matched message keeps its identity and
role while its string content is extended by the string fragment. -/
theorem c9_partial_event_frame (aid : String) (ev : Json) (msgs : List Json)
    (hev : jsEqStr (getF ev "type") "partial" = true) :
    (applyStreamEventToMessages aid ev msgs).length = msgs.length ∧
    (∀ (i : Nat) (m : Json), msgs[i]? = some m → jsEqStr (getF m "id") aid = false →
      (applyStreamEventToMessages aid ev msgs)[i]? = some m) ∧
    (∀ (i : Nat) (m : Json), msgs[i]? = some m → jsEqStr (getF m "id") aid = true →
      ∃ m', (applyStreamEventToMessages aid ev msgs)[i]? = some m' ∧
        getF m' "id" = getF m "id" ∧
        getF m' "role" = getF m "role" ∧
        (∀ c f, getF m "content" = some (.str c) → getF ev "partial" = some (.str f) →
          getF m' "content" = some (.str (c ++ f)))) := by
  refine ⟨applyStreamEvent_length aid ev msgs,
    fun i m hm hid => applyStreamEvent_frame aid ev msgs i m hm hid,
    fun i m hm hid => ?_⟩
  unfold applyStreamEventToMessages
  rw [if_pos hev]
  refine ⟨jsSpreadSet m "content"
      (jsAddU (jsOrJ (getF m "content") (.str "")) (getF ev "partial")), ?_, ?_⟩
  · rw [List.getElem?_map, hm]
    simp [hid]
  · cases m with
    | obj fs =>
      refine ⟨lookupField_setField_ne fs "content" _ "id" (by decide),
        lookupField_setField_ne fs "content" _ "role" (by decide), ?_⟩
      intro c f hc hf
      rw [hf]
      show getF (.obj (jsSpreadSet.setField fs "content"
        (jsAddU (jsOrJ (getF (.obj fs) "content") (.str "")) (some (.str f))))) "content"
          = some (.str (c ++ f))
      rw [show getF (.obj (jsSpreadSet.setField fs "content"
            (jsAddU (jsOrJ (getF (.obj fs) "content") (.str "")) (some (.str f))))) "content"
          = some (jsAddU (jsOrJ (getF (.obj fs) "content") (.str "")) (some (.str f))) from
        lookupField_setField_eq fs "content" _]
      rw [hc]
      by_cases hcs : c = ""
      · subst hcs
        rfl
      · have : truthyJ (.str c) = true := by simp [truthyJ, hcs]
        simp [jsOrJ, this, jsAddU, jsAdd, jsToString]
    | _ => simp [getF, jsEqStr] at hid

theorem c9_partial_event_frame_witness :
    (applyStreamEventToMessages "p1" (mkPartialEvent "!")
        [Json.obj [("id", .str "u1"), ("role", .str "user"), ("content", .str "hi")],
         assistantPlaceholder "p1" (.str "c1") "t0"]).length = 2 ∧
    (applyStreamEventToMessages "p1" (mkPartialEvent "!")
        [Json.obj [("id", .str "u1"), ("role", .str "user"), ("content", .str "hi")],
         assistantPlaceholder "p1" (.str "c1") "t0"])[0]?
      = some (Json.obj [("id", .str "u1"), ("role", .str "user"), ("content", .str "hi")]) :=
  ⟨(c9_partial_event_frame "p1" (mkPartialEvent "!")
      [Json.obj [("id", .str "u1"), ("role", .str "user"), ("content", .str "hi")],
       assistantPlaceholder "p1" (.str "c1") "t0"] rfl).1,
   (c9_partial_event_frame "p1" (mkPartialEvent "!")
      [Json.obj [("id", .str "u1"), ("role", .str "user"), ("content", .str "hi")],
       assistantPlaceholder "p1" (.str "c1") "t0"] rfl).2.1 0
      (Json.obj [("id", .str "u1"), ("role", .str "user"), ("content", .str "hi")]) rfl rfl⟩

/-- C1 counterexample: a concrete reachable interleaving.  A session starts a
turn (placeholder `stream-1`), the stream delivers a partial fragment, the
user sends a second message (placeholder `stream-2`; the previous list is
kept and appended to), and then a late event from the superseded first
stream — here the synthetic error its own abort produces — arrives at the
first turn's callback.  The visible message list changes: the old
placeholder's content is overwritten, so late events of a superseded stream
are not ignored by the controller. -/
theorem c1_counterexample_late_event_mutates :
    let st1 := (handleStartAnalysis "Revenue trend Q1"
      ⟨⟨true, 200, "", .obj [("id", .str "c1")]⟩,
       ⟨true, 200, "", .obj [("id", .str "u1"), ("conversation_id", .str "c1"),
          ("role", .str "user"), ("content", .str "Revenue trend Q1"),
          ("created_at", .str "t1")]⟩, "stream-1", "t1"⟩
      initialSessionState).1
    let stMid := { st1 with messages :=
      applyStreamEventToMessages "stream-1" (mkPartialEvent "Hel") st1.messages }
    let st2 := (handleSendMessage "And Q2?"
      ⟨⟨true, 200, "", .obj [("id", .str "u2"), ("conversation_id", .str "c1"),
          ("role", .str "user"), ("content", .str "And Q2?"),
          ("created_at", .str "t2")]⟩, "stream-2", "t2", 2⟩ stMid).1
    applyStreamEventToMessages "stream-1" (mkErrorEvent "The operation was aborted.")
        st2.messages
      ≠ st2.messages := by
  intro st1 stMid st2 h
  have h1 : getF ((applyStreamEventToMessages "stream-1"
      (mkErrorEvent "The operation was aborted.") st2.messages).getD 1 .null) "content"
      = some (.str "Error: The operation was aborted.") := rfl
  rw [h] at h1
  have h2 := h1.symm.trans
    (rfl : getF (st2.messages.getD 1 .null) "content" = some (.str "Hel"))
  injection h2 with h3
  injection h3 with h4
  exact absurd h4 (by decide)

/-- C1 amended: starting a second turn does call `stop()` on a previously
recorded handle (a send-after-send records it; a turn started by
`startSession` records its handle only once a `final` event arrives), but
late events of the superseded stream are not ignored by handle identity:
they are filtered only by the placeholder identity their callback captured,
so they still mutate the superseded turn's own placeholder, while every
message whose identity differs — the new turn's placeholder and user
messages included — and the list's length and order are untouched. -/
theorem c1_superseded_events_touch_only_old_placeholder (oldAid : String)
    (ev : Json) (msgs : List Json) :
    (applyStreamEventToMessages oldAid ev msgs).length = msgs.length ∧
    (∀ (i : Nat) (m : Json), msgs[i]? = some m →
      jsEqStr (getF m "id") oldAid = false →
      (applyStreamEventToMessages oldAid ev msgs)[i]? = some m) :=
  ⟨applyStreamEvent_length oldAid ev msgs,
   fun i m hm hid => applyStreamEvent_frame oldAid ev msgs i m hm hid⟩

theorem c1_superseded_events_touch_only_old_placeholder_witness :
    (applyStreamEventToMessages "stream-1" (mkErrorEvent "The operation was aborted.")
        [assistantPlaceholder "stream-1" (.str "c1") "t1",
         assistantPlaceholder "stream-2" (.str "c1") "t2"]).length = 2 ∧
    (applyStreamEventToMessages "stream-1" (mkErrorEvent "The operation was aborted.")
        [assistantPlaceholder "stream-1" (.str "c1") "t1",
         assistantPlaceholder "stream-2" (.str "c1") "t2"])[1]?
      = some (assistantPlaceholder "stream-2" (.str "c1") "t2") :=
  ⟨(c1_superseded_events_touch_only_old_placeholder "stream-1"
      (mkErrorEvent "The operation was aborted.")
      [assistantPlaceholder "stream-1" (.str "c1") "t1",
       assistantPlaceholder "stream-2" (.str "c1") "t2"]).1,
   (c1_superseded_events_touch_only_old_placeholder "stream-1"
      (mkErrorEvent "The operation was aborted.")
      [assistantPlaceholder "stream-1" (.str "c1") "t1",
       assistantPlaceholder "stream-2" (.str "c1") "t2"]).2 1
      (assistantPlaceholder "stream-2" (.str "c1") "t2") rfl rfl⟩

/-- C6 counterexample: when the `final` event supplies `final_output` with
the empty-string value, that value does not become the final content — the
`||` fallback keeps the accumulated fragment concatenation instead. -/
theorem c6_counterexample_empty_final_output :
    getF ((runTurnEvents "p1" [mkPartialEvent "a", mkFinalEventNoMsg (some "")]
        [assistantPlaceholder "p1" (.str "c1") "t0"]).getD 0 .null) "content"
      = some (.str "a") ∧
    ¬ getF ((runTurnEvents "p1" [mkPartialEvent "a", mkFinalEventNoMsg (some "")]
        [assistantPlaceholder "p1" (.str "c1") "t0"]).getD 0 .null) "content"
      = some (.str "") := by
  refine ⟨rfl, fun h => ?_⟩
  have h2 := (rfl : getF ((runTurnEvents "p1"
      [mkPartialEvent "a", mkFinalEventNoMsg (some "")]
      [assistantPlaceholder "p1" (.str "c1") "t0"]).getD 0 .null) "content"
      = some (.str "a")).symm.trans h
  injection h2 with h3
  injection h3 with h4
  exact absurd h4 (by decide)

/-- C6 amended: for fragments f1..fn followed by a `final` without
`assistant_message`, the placeholder's final content is the concatenation
f1+...+fn; a `final_output` value takes precedence only when it is truthy
(non-empty) — an empty-string `final_output` is ignored and the accumulated
content kept.  Accumulated content is never dropped without a truthy
replacement, and other messages are untouched. -/
theorem c6_final_content_amended (aid : String) (cid : Json) (ts : String)
    (other : List Json) (hother : ∀ m ∈ other, jsEqStr (getF m "id") aid = false)
    (frags : List String) (fo : Option String) :
    runTurnEvents aid (frags.map mkPartialEvent ++ [mkFinalEventNoMsg fo])
        (other ++ [assistantPlaceholder aid cid ts])
      = other ++ [placeholderWithContent aid cid ts
          (match fo with
           | some s => if s = "" then String.join frags else s
           | none => String.join frags)] := by
  simp only [runTurnEvents, List.foldl_append]
  have h1 := runTurn_partials aid frags other hother cid ts ""
  simp only [runTurnEvents] at h1
  rw [show (assistantPlaceholder aid cid ts)
      = placeholderWithContent aid cid ts "" from rfl, h1]
  simp only [List.foldl_cons, List.foldl_nil]
  have h2 := apply_final_step aid fo other hother cid ts ("" ++ String.join frags)
  rw [h2]
  rfl

theorem c6_final_content_amended_witness :
    runTurnEvents "p1" (["Rev", "enue is up"].map mkPartialEvent ++ [mkFinalEventNoMsg none])
        [assistantPlaceholder "p1" (.str "c1") "t0"]
      = [placeholderWithContent "p1" (.str "c1") "t0" "Revenue is up"] :=
  (c6_final_content_amended "p1" (.str "c1") "t0" []
      (fun m hm => absurd hm (List.not_mem_nil m)) ["Rev", "enue is up"] none).trans rfl

/-- C4: if conversation creation fails (non-success status, a null decoded
body, or a created conversation in which no truthy identity can be
established), `handleStartAnalysis` reports the failure and leaves the
session idle: the conversation reference stays empty, the message list stays
empty (no placeholder is visible), and the stream handle is untouched. -/
theorem c4_failed_start_leaves_idle (q : String) (inp : StartInputs) (st : SessionState)
    (hq : (jsTrim q == "") = false)
    (hconv : st.currentConversation = none) (hmsgs : st.messages = [])
    (hfail : inp.convResp.ok = false ∨ inp.convResp.bodyJson = .null ∨
      (truthyJ (startNormalizedConversation q inp.convResp.bodyJson) &&
        truthyO (getF (startNormalizedConversation q inp.convResp.bodyJson) "id")) = false) :
    (handleStartAnalysis q inp st).1.currentConversation = none ∧
    (handleStartAnalysis q inp st).1.messages = [] ∧
    (handleStartAnalysis q inp st).1.streamHandle = st.streamHandle ∧
    (handleStartAnalysis q inp st).2.isSome = true := by
  have herr : ∀ e, conversationsApi.create (some (deriveTitle q)) inp.convResp = .error e →
      handleStartAnalysis q inp st
        = ({ st with hasStarted := true, isLoading := false }, some e) := by
    intro e he
    unfold handleStartAnalysis
    rw [if_neg (by simp [hq]), he]
  rcases hfail with h | h | h
  · have he : conversationsApi.create (some (deriveTitle q)) inp.convResp
        = .error "Failed to create conversation" := by
      simp [conversationsApi.create, h]
    rw [herr _ he]
    exact ⟨hconv, hmsgs, rfl, rfl⟩
  · by_cases hok : inp.convResp.ok = true
    · have he : conversationsApi.create (some (deriveTitle q)) inp.convResp
          = .error "TypeError: Cannot read properties of null (reading 'conversation')" := by
        simp [conversationsApi.create, hok, h]
      rw [herr _ he]
      exact ⟨hconv, hmsgs, rfl, rfl⟩
    · have he : conversationsApi.create (some (deriveTitle q)) inp.convResp
          = .error "Failed to create conversation" := by
        simp [conversationsApi.create, Bool.eq_false_iff.mpr hok]
      rw [herr _ he]
      exact ⟨hconv, hmsgs, rfl, rfl⟩
  · by_cases hok : inp.convResp.ok = true
    · by_cases hnull : inp.convResp.bodyJson = .null
      · have he : conversationsApi.create (some (deriveTitle q)) inp.convResp
            = .error "TypeError: Cannot read properties of null (reading 'conversation')" := by
          simp [conversationsApi.create, hok, hnull]
        rw [herr _ he]
        exact ⟨hconv, hmsgs, rfl, rfl⟩
      · simp only [startNormalizedConversation] at h
        unfold handleStartAnalysis
        rw [if_neg (by simp [hq])]
        simp only [conversationsApi_create_ok _ _ hok hnull]
        rw [if_pos (by simp [h])]
        exact ⟨hconv, hmsgs, rfl, rfl⟩
    · have he : conversationsApi.create (some (deriveTitle q)) inp.convResp
          = .error "Failed to create conversation" := by
        simp [conversationsApi.create, Bool.eq_false_iff.mpr hok]
      rw [herr _ he]
      exact ⟨hconv, hmsgs, rfl, rfl⟩

theorem c4_failed_start_leaves_idle_witness :
    (handleStartAnalysis "Revenue trend Q1"
        ⟨⟨false, 500, "overloaded", .null⟩, ⟨true, 200, "", .null⟩, "stream-1", "t1"⟩
        initialSessionState).1.currentConversation = none ∧
    (handleStartAnalysis "Revenue trend Q1"
        ⟨⟨false, 500, "overloaded", .null⟩, ⟨true, 200, "", .null⟩, "stream-1", "t1"⟩
        initialSessionState).1.messages = [] ∧
    (handleStartAnalysis "Revenue trend Q1"
        ⟨⟨false, 500, "overloaded", .null⟩, ⟨true, 200, "", .null⟩, "stream-1", "t1"⟩
        initialSessionState).1.streamHandle = initialSessionState.streamHandle ∧
    (handleStartAnalysis "Revenue trend Q1"
        ⟨⟨false, 500, "overloaded", .null⟩, ⟨true, 200, "", .null⟩, "stream-1", "t1"⟩
        initialSessionState).2.isSome = true :=
  c4_failed_start_leaves_idle "Revenue trend Q1"
    ⟨⟨false, 500, "overloaded", .null⟩, ⟨true, 200, "", .null⟩, "stream-1", "t1"⟩
    initialSessionState rfl rfl rfl (.inl rfl)
